import Mathlib

/-!
Shallow embedding of the multimodel / single-model streaming chat
orchestrator of gollamacli (package `cli`, files `cli.go` and the
multimodel TUI file).  Go structures become Lean structures, `strings.Builder`
becomes `String`, Go `error` values become `Option String`/`String`, the
`[4]multimodelColumnResponse` array becomes a `List` whose updates are guarded
by the same `hostIndex < len` checks the source performs, and `time.Time`
values become `Nat` parameters threaded explicitly.  Terminal-UI components
(textarea, viewport, spinner) only affect rendering and focus and are outside
the modeled state.
-/

namespace GollamaCLI

/-- Mirror of `Host` (cli.go): name, base URL, configured model list. -/
structure Host where
  name : String
  url : String
  models : List String
deriving DecidableEq, Repr

/-- Mirror of `LLMResponseMeta` (cli.go).  `CreatedAt time.Time` is modeled as
a `Nat` timestamp supplied by the caller. -/
structure LLMResponseMeta where
  model : String
  createdAt : Nat
  done : Bool
  totalDuration : Int
  loadDuration : Int
  promptEvalCount : Int
  promptEvalDuration : Int
  evalCount : Int
  evalDuration : Int
deriving DecidableEq, Repr

instance : Inhabited LLMResponseMeta :=
  ⟨{ model := "", createdAt := 0, done := false, totalDuration := 0, loadDuration := 0,
     promptEvalCount := 0, promptEvalDuration := 0, evalCount := 0, evalDuration := 0 }⟩

/-- Mirror of `chatMessage` (cli.go): role and content of one turn. -/
structure chatMessage where
  role : String
  content : String
deriving DecidableEq, Repr

/-- Mirror of `streamChunk` (cli.go): one decoded record of the
newline-delimited JSON chat stream. -/
structure streamChunk where
  model : String
  messageRole : String
  messageContent : String
  done : Bool
  totalDuration : Int
  loadDuration : Int
  promptEvalCount : Int
  promptEvalDuration : Int
  evalCount : Int
  evalDuration : Int
deriving DecidableEq, Repr

/-- The zero value of `streamChunk`, which is what `finalChunk` holds when the
stream ends before any `done:true` record was decoded. -/
def zeroStreamChunk : streamChunk :=
  { model := "", messageRole := "", messageContent := "", done := false,
    totalDuration := 0, loadDuration := 0, promptEvalCount := 0,
    promptEvalDuration := 0, evalCount := 0, evalDuration := 0 }

/-- Builds the `LLMResponseMeta` that `streamToColumn`/`streamChatCmd` attach
to the end-of-stream message from `finalChunk`; `now` stands for the
`time.Now()` call. -/
def metaOfChunk (now : Nat) (c : streamChunk) : LLMResponseMeta :=
  { model := c.model, createdAt := now, done := c.done,
    totalDuration := c.totalDuration, loadDuration := c.loadDuration,
    promptEvalCount := c.promptEvalCount, promptEvalDuration := c.promptEvalDuration,
    evalCount := c.evalCount, evalDuration := c.evalDuration }

/-- Mirror of `multimodelColumnResponse` (multimodel file): per-column
streaming state.  `content strings.Builder` is a `String`, `error` is
`Option String`, `requestStartTime` a `Nat`. -/
structure multimodelColumnResponse where
  hostIndex : Nat
  content : String
  isStreaming : Bool
  error : Option String
  meta : LLMResponseMeta
  chatHistory : List chatMessage
  requestStartTime : Nat
deriving DecidableEq, Repr

instance : Inhabited multimodelColumnResponse :=
  ⟨{ hostIndex := 0, content := "", isStreaming := false, error := none,
     meta := default, chatHistory := [], requestStartTime := 0 }⟩

/-- Mirror of `hostModelAssignment` (multimodel file). -/
structure hostModelAssignment where
  host : Host
  selectedModel : String
  models : List String
  isAssigned : Bool
deriving DecidableEq, Repr

instance : Inhabited hostModelAssignment :=
  ⟨{ host := ⟨"", "", []⟩, selectedModel := "", models := [], isAssigned := false }⟩

/-- Mirror of `multimodelViewState` (multimodel file). -/
inductive multimodelViewState where
  | assignment
  | loadingChat
  | chat
deriving DecidableEq, Repr

/-- Mirror of the orchestrator-relevant fields of `multimodelModel`
(multimodel file).  The Bubble Tea UI components (textarea, viewport, spinner,
list models, width/height, program handle) are presentation-only and omitted.
`columnResponses` is the `[4]multimodelColumnResponse` array as a list; every
access in the source is guarded by `hostIndex < len(m.columnResponses)` and the
embedding keeps those guards. -/
@[ext]
structure multimodelModel where
  state : multimodelViewState
  isLoading : Bool
  err : Option String
  assignments : List hostModelAssignment
  chatHistory : List chatMessage
  columnResponses : List multimodelColumnResponse
  requestStartTime : Nat
deriving DecidableEq, Repr

/-- Tagged variant of the three multimodel stream messages
(`multimodelStreamChunkMsg`, `multimodelStreamEndMsg`, `multimodelStreamErr`). -/
inductive multimodelMsg where
  | streamChunk (hostIndex : Nat) (message : chatMessage)
  | streamEnd (hostIndex : Nat) (meta : LLMResponseMeta)
  | streamErr (hostIndex : Nat) (err : String)
deriving DecidableEq, Repr

/-- The host index carried by a multimodel stream message. -/
def multimodelMsg.hostIndex : multimodelMsg → Nat
  | .streamChunk i _ => i
  | .streamEnd i _ => i
  | .streamErr i _ => i

/-- In-place update of the column at index `i`, the Lean rendering of
`m.columnResponses[i].field = ...`; leaves the list unchanged out of range. -/
def setColumn : List multimodelColumnResponse → Nat →
    (multimodelColumnResponse → multimodelColumnResponse) → List multimodelColumnResponse
  | [], _, _ => []
  | c :: cs, 0, f => f c :: cs
  | c :: cs, Nat.succ n, f => c :: setColumn cs n f

/-- The chunk-application logic of the `multimodelStreamChunkMsg` case: if the
last turn of the column history is an assistant turn its content is extended
in place, otherwise the incoming message is appended as a new turn. -/
def applyChunk (history : List chatMessage) (message : chatMessage) : List chatMessage :=
  match history.getLast? with
  | some last =>
      if last.role = "assistant" then
        history.dropLast ++ [{ last with content := last.content ++ message.content }]
      else history ++ [message]
  | none => history ++ [message]

/-- The `allDone` loop of the `multimodelStreamEndMsg` case: true unless some
assigned host with an in-range column is still streaming. -/
def allDone (assignments : List hostModelAssignment)
    (cols : List multimodelColumnResponse) : Bool :=
  assignments.enum.all fun p =>
    !(p.2.isAssigned && decide (p.1 < cols.length) && (cols.getD p.1 default).isStreaming)

/-- True when some assigned in-range column has non-empty `content`; this is
the guard of the outer fold loop in the `allDone` branch. -/
def hasQualifying (assignments : List hostModelAssignment)
    (cols : List multimodelColumnResponse) : Bool :=
  assignments.enum.any fun p =>
    p.2.isAssigned && decide (p.1 < cols.length) &&
      decide (0 < (cols.getD p.1 default).content.length)

/-- The `combinedResponse` builder: concatenates
`"[host - model]: content\n\n"` for every assigned in-range column with
non-empty content, in assignment order. -/
def combinedResponse (assignments : List hostModelAssignment)
    (cols : List multimodelColumnResponse) : String :=
  assignments.enum.foldl
    (fun acc p =>
      if p.2.isAssigned && decide (p.1 < cols.length) &&
          decide (0 < (cols.getD p.1 default).content.length) then
        acc ++ "[" ++ p.2.host.name ++ " - " ++ p.2.selectedModel ++ "]: " ++
          (cols.getD p.1 default).content ++ "\n\n"
      else acc)
    ""

/-- The fold of the `allDone` branch that may append one combined assistant
entry to the shared `chatHistory`.  The Go source loops over assignments and
breaks after the first qualifying index whose check fires; since neither
`chatHistory` nor the columns change between iterations, that loop is
equivalent to this single conditional append. -/
def foldStep (assignments : List hostModelAssignment)
    (cols : List multimodelColumnResponse)
    (chatHistory : List chatMessage) : List chatMessage :=
  if hasQualifying assignments cols then
    match chatHistory.getLast? with
    | some last =>
        if last.role = "user" then
          let c := combinedResponse assignments cols
          if 0 < c.length then chatHistory ++ [{ role := "assistant", content := c }]
          else chatHistory
        else chatHistory
    | none => chatHistory
  else chatHistory

/-- The three stream-message cases of `multimodelModel.Update`.  Each case in
the source ends with `return m, nil`, so no other state is touched.  The
source's guarded in-place mutation `if hostIndex < len { m.columnResponses[i].f = v }`
is rendered as a conditional update of the `columnResponses` field (out of
range, the field — and hence the state — is unchanged). -/
def multimodelUpdate (m : multimodelModel) : multimodelMsg → multimodelModel
  | .streamChunk i message =>
      { m with columnResponses :=
          if i < m.columnResponses.length then
            setColumn m.columnResponses i fun c =>
              { c with chatHistory := applyChunk c.chatHistory message, isStreaming := true }
          else m.columnResponses }
  | .streamEnd i meta =>
      let cols :=
        if i < m.columnResponses.length then
          setColumn m.columnResponses i fun c => { c with meta := meta, isStreaming := false }
        else m.columnResponses
      let m1 : multimodelModel := { m with columnResponses := cols }
      if allDone m1.assignments m1.columnResponses then
        { m1 with isLoading := false,
                  chatHistory := foldStep m1.assignments m1.columnResponses m1.chatHistory }
      else m1
  | .streamErr i e =>
      { m with columnResponses :=
          if i < m.columnResponses.length then
            setColumn m.columnResponses i fun c => { c with error := some e, isStreaming := false }
          else m.columnResponses }

/-- Folds a list of stream messages through `multimodelUpdate`; this is the
serialized single-threaded dispatch of the Bubble Tea event loop. -/
def dispatchAll (m : multimodelModel) (msgs : List multimodelMsg) : multimodelModel :=
  msgs.foldl multimodelUpdate m

/-- Go `unicode.IsSpace`: the White_Space code points trimmed by
`strings.TrimSpace`. -/
def goIsSpace (c : Char) : Bool :=
  c.val = 0x09 || c.val = 0x0A || c.val = 0x0B || c.val = 0x0C || c.val = 0x0D ||
  c.val = 0x20 || c.val = 0x85 || c.val = 0xA0 || c.val = 0x1680 ||
  (0x2000 ≤ c.val && c.val ≤ 0x200A) || c.val = 0x2028 || c.val = 0x2029 ||
  c.val = 0x202F || c.val = 0x205F || c.val = 0x3000

/-- Mirror of `strings.TrimSpace`: drops leading and trailing white space. -/
def trimSpace (s : String) : String :=
  String.mk (((s.data.dropWhile goIsSpace).reverse.dropWhile goIsSpace).reverse)

/-- The host indices for which `multimodelStreamChatCmd` starts a streaming
goroutine: exactly the assigned assignments, by index. -/
def startedSessions (assignments : List hostModelAssignment) : List Nat :=
  (assignments.enum.filter fun p => p.2.isAssigned).map Prod.fst

/-- The enter-key submit branch of `multimodelModel.updateChat`: trims the
textarea value (`value`); when non-empty, appends the user turn to every
assigned column's history, marks assigned columns streaming with the round
start time `now`, resets every column's content buffer and error, sets
`isLoading`, and starts one session per assigned host (returned as the list
of started host indices).  When the trimmed input is empty the branch is
skipped entirely.  The Go loop reads `m.assignments[i]` for each column index;
the embedding totalizes that read with `getD`. -/
def updateChatSubmit (m : multimodelModel) (value : String) (now : Nat) :
    multimodelModel × List Nat :=
  let userInput := trimSpace value
  if userInput = "" then (m, [])
  else
    let userMsg : chatMessage := { role := "user", content := userInput }
    let cols := m.columnResponses.enum.map fun p =>
      let c := p.2
      if (m.assignments.getD p.1 default).isAssigned then
        { c with chatHistory := c.chatHistory ++ [userMsg], requestStartTime := now,
                 isStreaming := true, content := "", error := none }
      else
        { c with isStreaming := false, content := "", error := none }
    ({ m with columnResponses := cols, requestStartTime := now, isLoading := true },
     startedSessions m.assignments)

/-- Mirror of `initialMultimodelModel`: assignments built from the configured
hosts (models copied, nothing assigned), four zero-value columns with their
`hostIndex` set, assignment view, not loading. -/
def initialMultimodelModel (hosts : List Host) : multimodelModel :=
  { state := .assignment, isLoading := false, err := none,
    assignments := hosts.map fun h =>
      { host := h, selectedModel := "", models := h.models, isAssigned := false },
    chatHistory := [],
    columnResponses := (List.range 4).map fun i =>
      { hostIndex := i, content := "", isStreaming := false, error := none,
        meta := default, chatHistory := [], requestStartTime := 0 },
    requestStartTime := 0 }

/-- The enter-key selection branch of `multimodelModel.updateAssignment` in
model-selection mode: records the chosen model on the assignment at
`hostIdx` and marks it assigned. -/
def selectModel (m : multimodelModel) (hostIdx : Nat) (modelName : String) : multimodelModel :=
  { m with assignments := m.assignments.enum.map fun p =>
      if p.1 = hostIdx then { p.2 with selectedModel := modelName, isAssigned := true }
      else p.2 }

/-- The outcome of one `json.Decoder.Decode` call on the response body: a
decoded record, or a failure (malformed JSON or read/transport error, which
the decoder reports identically as a non-EOF error).  End of input (io.EOF)
is the end of the list. -/
inductive decodeResult where
  | ok (chunk : streamChunk)
  | decodeFailure (err : String)
deriving DecidableEq, Repr

/-- The chunk message `streamToColumn` sends for one decoded record. -/
def chunkEventOf (hostIndex : Nat) (c : streamChunk) : multimodelMsg :=
  .streamChunk hostIndex { role := c.messageRole, content := c.messageContent }

/-- The decode loop of `streamToColumn` (multimodel file): for each decoded
record, sends a chunk message; stops after a `done` record and sends the end
message built from it; at EOF sends the end message built from the zero-value
`finalChunk`; a decode failure makes `streamToColumn` return the error, which
the caller goroutine in `multimodelStreamChatCmd` turns into a
`multimodelStreamErr` message (and no end message is sent). -/
def streamToColumn (hostIndex : Nat) (now : Nat) :
    List decodeResult → List multimodelMsg
  | [] => [.streamEnd hostIndex (metaOfChunk now zeroStreamChunk)]
  | .decodeFailure e :: _ => [.streamErr hostIndex e]
  | .ok c :: rest =>
      chunkEventOf hostIndex c ::
        (if c.done then [.streamEnd hostIndex (metaOfChunk now c)]
         else streamToColumn hostIndex now rest)

/-- The single-model stream messages (`streamChunkMsg`, `streamEndMsg`,
`streamErr` of cli.go). -/
inductive singleMsg where
  | streamChunk (content : String)
  | streamEnd (meta : LLMResponseMeta)
  | streamErr (err : String)
deriving DecidableEq, Repr

/-- The decode loop of the goroutine inside `streamChatCmd` (cli.go); unlike
`streamToColumn`, after sending `streamErr` for a decode failure it still
falls through and sends `streamEndMsg` built from the zero-value
`finalChunk`. -/
def streamChatEvents (now : Nat) : List decodeResult → List singleMsg
  | [] => [.streamEnd (metaOfChunk now zeroStreamChunk)]
  | .decodeFailure e :: _ =>
      [.streamErr e, .streamEnd (metaOfChunk now zeroStreamChunk)]
  | .ok c :: rest =>
      .streamChunk c.messageContent ::
        (if c.done then [.streamEnd (metaOfChunk now c)]
         else streamChatEvents now rest)

/-- Mirror of the orchestrator-relevant fields of the single-host `model`
(cli.go); UI components omitted as before. -/
@[ext]
structure model where
  isLoading : Bool
  err : Option String
  chatHistory : List chatMessage
  responseBuf : String
  responseMeta : LLMResponseMeta
deriving DecidableEq, Repr

/-- The `streamEndMsg` case of `model.Update` (cli.go): records the metadata,
and if the accumulation buffer is non-empty appends it as one assistant turn
and resets the buffer; clears `isLoading` either way. -/
def modelUpdateStreamEnd (m : model) (meta : LLMResponseMeta) : model :=
  let m1 := { m with responseMeta := meta }
  if 0 < m1.responseBuf.length then
    { m1 with chatHistory := m1.chatHistory ++ [chatMessage.mk "assistant" m1.responseBuf],
              responseBuf := "", isLoading := false }
  else { m1 with isLoading := false }

/-- Mirror of the list `item` (cli.go): title, description and loaded flag. -/
structure listItem where
  title : String
  desc : String
  loaded : Bool
deriving DecidableEq, Repr

/-- One iteration of the partition loop of `fetchAndSelectModelsCmd` (cli.go):
appends the item for model `m` to the loaded or the unloaded group. -/
def fetchStep (loadedModels : List String) (acc : List listItem × List listItem)
    (m : String) : List listItem × List listItem :=
  let isLoaded := decide (m ∈ loadedModels)
  let it : listItem := { title := m, desc := "Select this model", loaded := isLoaded }
  if isLoaded then (acc.1 ++ [it], acc.2) else (acc.1, acc.2 ++ [it])

/-- The list-building core of `fetchAndSelectModelsCmd` (cli.go): partitions
the host's configured models into loaded and unloaded items, preserving
configured order inside each group, and concatenates loaded items first.
`loadedModels` is what `getLoadedModels` read from `/api/ps`. -/
def fetchAndSelectModels (hostModels loadedModels : List String) : List listItem :=
  let groups := hostModels.foldl (fetchStep loadedModels) ([], [])
  groups.1 ++ groups.2

/-- The model list built by the enter branch of
`multimodelModel.updateAssignment` (multimodel file): the host's configured
models in configured order; the loaded-model status query is not consulted
on this path. -/
def multimodelModelItems (models : List String) : List listItem :=
  models.map fun m => { title := m, desc := "Select this model", loaded := false }

/-- Two configured hosts, as in the two-host scenario of the spec. -/
def scenarioHosts : List Host :=
  [{ name := "H1", url := "http://h1", models := ["m1"] },
   { name := "H2", url := "http://h2", models := ["m2"] }]

/-- Both hosts assigned their model through the assignment view. -/
def scenarioAssigned : multimodelModel :=
  selectModel (selectModel (initialMultimodelModel scenarioHosts) 0 "m1") 1 "m2"

/-- State after the user submits "hi" at time 5. -/
def scenarioSubmitted : multimodelModel :=
  (updateChatSubmit scenarioAssigned "hi" 5).1

/-- A non-terminal stream record carrying one assistant fragment. -/
def fragChunk (modelName content : String) : streamChunk :=
  { zeroStreamChunk with model := modelName, messageRole := "assistant",
                         messageContent := content }

/-- The terminal stream record, with concrete duration and token metrics. -/
def doneChunk (modelName : String) : streamChunk :=
  { zeroStreamChunk with model := modelName, messageRole := "assistant", done := true,
                         totalDuration := 900, loadDuration := 100, promptEvalCount := 3,
                         promptEvalDuration := 200, evalCount := 7, evalDuration := 600 }

/-- Host H1's stream: fragments "He" and "llo", then the terminal record. -/
def h1Events : List multimodelMsg :=
  streamToColumn 0 9 [.ok (fragChunk "m1" "He"), .ok (fragChunk "m1" "llo"),
                      .ok (doneChunk "m1")]

/-- Host H2's stream when it errors (status 500) after the fragment "Hi". -/
def h2ErrorEvents : List multimodelMsg :=
  streamToColumn 1 9 [.ok (fragChunk "m2" "Hi"),
                      .decodeFailure "API returned non-200 status: 500"]

/-- Host H2's stream when it completes normally after the fragment "Hi". -/
def h2OkEvents : List multimodelMsg :=
  streamToColumn 1 9 [.ok (fragChunk "m2" "Hi"), .ok (doneChunk "m2")]

/-- End state of the round in which H2 errors after H1 completed; the error
message is the last event dispatched. -/
def scenarioErrorFinal : multimodelModel :=
  dispatchAll scenarioSubmitted (h1Events ++ h2ErrorEvents)

/-- End state of the round in which both hosts complete normally. -/
def scenarioOkFinal : multimodelModel :=
  dispatchAll scenarioSubmitted (h1Events ++ h2OkEvents)

/-- Shorthand for reading the column of host `h` (in-range in every use). -/
def colAt (m : multimodelModel) (h : Nat) : multimodelColumnResponse :=
  m.columnResponses.getD h default

/-- Concatenation of the fragment contents of a message list, in order. -/
def concatContents : List chatMessage → String
  | [] => ""
  | msg :: rest => msg.content ++ concatContents rest

/-- Whether the last turn of a history is an assistant turn (the test the
chunk handler performs). -/
def lastIsAssistant (l : List chatMessage) : Bool :=
  match l.getLast? with
  | some last => last.role == "assistant"
  | none => false

theorem setColumn_length (l : List multimodelColumnResponse) (i : Nat)
    (f : multimodelColumnResponse → multimodelColumnResponse) :
    (setColumn l i f).length = l.length := by
  induction l generalizing i with
  | nil => simp [setColumn]
  | cons c cs ih =>
    cases i with
    | zero => simp [setColumn]
    | succ n => simp [setColumn, ih]

theorem getD_setColumn_self (l : List multimodelColumnResponse) (i : Nat)
    (f : multimodelColumnResponse → multimodelColumnResponse) (h : i < l.length) :
    (setColumn l i f).getD i default = f (l.getD i default) := by
  induction l generalizing i with
  | nil => simp at h
  | cons c cs ih =>
    cases i with
    | zero => simp [setColumn]
    | succ n =>
      simp only [setColumn, List.getD_cons_succ]
      exact ih n (by simpa using h)

theorem getD_setColumn_ne (l : List multimodelColumnResponse) (i j : Nat)
    (f : multimodelColumnResponse → multimodelColumnResponse) (h : j ≠ i) :
    (setColumn l i f).getD j default = l.getD j default := by
  induction l generalizing i j with
  | nil => simp [setColumn]
  | cons c cs ih =>
    cases i with
    | zero =>
      cases j with
      | zero => exact absurd rfl h
      | succ k => simp [setColumn]
    | succ n =>
      cases j with
      | zero => simp [setColumn]
      | succ k =>
        simp only [setColumn, List.getD_cons_succ]
        exact ih n k (by omega)

theorem setColumn_idem (l : List multimodelColumnResponse) (i : Nat)
    (f : multimodelColumnResponse → multimodelColumnResponse)
    (hf : ∀ c, f (f c) = f c) :
    setColumn (setColumn l i f) i f = setColumn l i f := by
  induction l generalizing i with
  | nil => simp [setColumn]
  | cons c cs ih =>
    cases i with
    | zero => simp [setColumn, hf]
    | succ n => simp [setColumn, ih]

theorem multimodelUpdate_chunk_cols (m : multimodelModel) (i : Nat) (msg : chatMessage) :
    (multimodelUpdate m (.streamChunk i msg)).columnResponses =
      if i < m.columnResponses.length then
        setColumn m.columnResponses i (fun c =>
          { c with chatHistory := applyChunk c.chatHistory msg, isStreaming := true })
      else m.columnResponses := rfl

theorem multimodelUpdate_chunk_globals (m : multimodelModel) (i : Nat) (msg : chatMessage) :
    (multimodelUpdate m (.streamChunk i msg)).assignments = m.assignments ∧
    (multimodelUpdate m (.streamChunk i msg)).chatHistory = m.chatHistory ∧
    (multimodelUpdate m (.streamChunk i msg)).isLoading = m.isLoading ∧
    (multimodelUpdate m (.streamChunk i msg)).err = m.err ∧
    (multimodelUpdate m (.streamChunk i msg)).state = m.state ∧
    (multimodelUpdate m (.streamChunk i msg)).requestStartTime = m.requestStartTime :=
  ⟨rfl, rfl, rfl, rfl, rfl, rfl⟩

theorem multimodelUpdate_end_cols (m : multimodelModel) (i : Nat) (meta : LLMResponseMeta) :
    (multimodelUpdate m (.streamEnd i meta)).columnResponses =
      if i < m.columnResponses.length then
        setColumn m.columnResponses i (fun c => { c with meta := meta, isStreaming := false })
      else m.columnResponses := by
  simp only [multimodelUpdate]
  split <;> split <;> rfl

theorem multimodelUpdate_end_globals (m : multimodelModel) (i : Nat) (meta : LLMResponseMeta) :
    (multimodelUpdate m (.streamEnd i meta)).assignments = m.assignments ∧
    (multimodelUpdate m (.streamEnd i meta)).err = m.err ∧
    (multimodelUpdate m (.streamEnd i meta)).state = m.state ∧
    (multimodelUpdate m (.streamEnd i meta)).requestStartTime = m.requestStartTime := by
  simp only [multimodelUpdate]
  split <;> split <;> exact ⟨rfl, rfl, rfl, rfl⟩

theorem multimodelUpdate_err_cols (m : multimodelModel) (i : Nat) (e : String) :
    (multimodelUpdate m (.streamErr i e)).columnResponses =
      if i < m.columnResponses.length then
        setColumn m.columnResponses i (fun c => { c with error := some e, isStreaming := false })
      else m.columnResponses := rfl

theorem multimodelUpdate_err_globals (m : multimodelModel) (i : Nat) (e : String) :
    (multimodelUpdate m (.streamErr i e)).assignments = m.assignments ∧
    (multimodelUpdate m (.streamErr i e)).chatHistory = m.chatHistory ∧
    (multimodelUpdate m (.streamErr i e)).isLoading = m.isLoading ∧
    (multimodelUpdate m (.streamErr i e)).err = m.err ∧
    (multimodelUpdate m (.streamErr i e)).state = m.state ∧
    (multimodelUpdate m (.streamErr i e)).requestStartTime = m.requestStartTime :=
  ⟨rfl, rfl, rfl, rfl, rfl, rfl⟩

theorem multimodelUpdate_cols_length (m : multimodelModel) (msg : multimodelMsg) :
    (multimodelUpdate m msg).columnResponses.length = m.columnResponses.length := by
  cases msg with
  | streamChunk i message =>
    rw [multimodelUpdate_chunk_cols]
    split <;> simp [setColumn_length]
  | streamEnd i meta =>
    rw [multimodelUpdate_end_cols]
    split <;> simp [setColumn_length]
  | streamErr i e =>
    rw [multimodelUpdate_err_cols]
    split <;> simp [setColumn_length]

theorem applyChunk_assistant_last (H : List chatMessage) (t : String) (msg : chatMessage) :
    applyChunk (H ++ [⟨"assistant", t⟩]) msg = H ++ [⟨"assistant", t ++ msg.content⟩] := by
  simp [applyChunk, List.getLast?_concat, List.dropLast_concat]

theorem applyChunk_seed (H : List chatMessage) (msg : chatMessage)
    (h : lastIsAssistant H = false) : applyChunk H msg = H ++ [msg] := by
  unfold applyChunk
  unfold lastIsAssistant at h
  cases hl : H.getLast? with
  | none => simp
  | some last =>
    rw [hl] at h
    simp only [beq_eq_false_iff_ne, ne_eq] at h
    simp [h]

theorem foldl_applyChunk_assistant (msgs : List chatMessage) (H : List chatMessage)
    (t : String) :
    msgs.foldl applyChunk (H ++ [⟨"assistant", t⟩]) =
      H ++ [⟨"assistant", t ++ concatContents msgs⟩] := by
  induction msgs generalizing t with
  | nil => simp [concatContents]
  | cons msg rest ih =>
    simp only [List.foldl_cons, applyChunk_assistant_last, ih, concatContents]
    rw [String.append_assoc]

theorem foldl_applyChunk_fresh (msg0 : chatMessage) (rest : List chatMessage)
    (H : List chatMessage) (hlast : lastIsAssistant H = false)
    (hrole : msg0.role = "assistant") :
    (msg0 :: rest).foldl applyChunk H = H ++ [⟨"assistant", concatContents (msg0 :: rest)⟩] := by
  have hmsg : msg0 = ⟨"assistant", msg0.content⟩ := by
    cases msg0 with
    | mk r c => simp at hrole; simp [hrole]
  simp only [List.foldl_cons, applyChunk_seed H msg0 hlast]
  rw [hmsg]
  rw [foldl_applyChunk_assistant rest H msg0.content]
  simp [concatContents]

theorem multimodelUpdate_chunk_colSelf (m : multimodelModel) (i : Nat) (msg : chatMessage)
    (h : i < m.columnResponses.length) :
    colAt (multimodelUpdate m (.streamChunk i msg)) i =
      { colAt m i with chatHistory := applyChunk (colAt m i).chatHistory msg,
                       isStreaming := true } := by
  unfold colAt
  rw [multimodelUpdate_chunk_cols, if_pos h, getD_setColumn_self _ _ _ h]

theorem multimodelUpdate_chunk_colOther (m : multimodelModel) (i : Nat) (msg : chatMessage)
    (j : Nat) (hj : j ≠ i) :
    colAt (multimodelUpdate m (.streamChunk i msg)) j = colAt m j := by
  unfold colAt
  rw [multimodelUpdate_chunk_cols]
  split
  · rw [getD_setColumn_ne _ _ _ _ hj]
  · rfl

theorem multimodelUpdate_end_colSelf (m : multimodelModel) (i : Nat)
    (meta : LLMResponseMeta) (h : i < m.columnResponses.length) :
    colAt (multimodelUpdate m (.streamEnd i meta)) i =
      { colAt m i with meta := meta, isStreaming := false } := by
  unfold colAt
  rw [multimodelUpdate_end_cols, if_pos h, getD_setColumn_self _ _ _ h]

theorem multimodelUpdate_end_colOther (m : multimodelModel) (i : Nat)
    (meta : LLMResponseMeta) (j : Nat) (hj : j ≠ i) :
    colAt (multimodelUpdate m (.streamEnd i meta)) j = colAt m j := by
  unfold colAt
  rw [multimodelUpdate_end_cols]
  split
  · rw [getD_setColumn_ne _ _ _ _ hj]
  · rfl

theorem multimodelUpdate_err_colSelf (m : multimodelModel) (i : Nat) (e : String)
    (h : i < m.columnResponses.length) :
    colAt (multimodelUpdate m (.streamErr i e)) i =
      { colAt m i with error := some e, isStreaming := false } := by
  unfold colAt
  rw [multimodelUpdate_err_cols, if_pos h, getD_setColumn_self _ _ _ h]

theorem multimodelUpdate_err_colOther (m : multimodelModel) (i : Nat) (e : String)
    (j : Nat) (hj : j ≠ i) :
    colAt (multimodelUpdate m (.streamErr i e)) j = colAt m j := by
  unfold colAt
  rw [multimodelUpdate_err_cols]
  split
  · rw [getD_setColumn_ne _ _ _ _ hj]
  · rfl

theorem multimodelUpdate_chunk_colFields (m : multimodelModel) (i : Nat)
    (msg : chatMessage) (j : Nat) :
    (colAt (multimodelUpdate m (.streamChunk i msg)) j).error = (colAt m j).error ∧
    (colAt (multimodelUpdate m (.streamChunk i msg)) j).meta = (colAt m j).meta ∧
    (colAt (multimodelUpdate m (.streamChunk i msg)) j).content = (colAt m j).content := by
  by_cases hj : j = i
  · subst hj
    by_cases hi : j < m.columnResponses.length
    · rw [multimodelUpdate_chunk_colSelf m j msg hi]
      exact ⟨rfl, rfl, rfl⟩
    · have hsame : colAt (multimodelUpdate m (.streamChunk j msg)) j = colAt m j := by
        unfold colAt
        rw [multimodelUpdate_chunk_cols, if_neg hi]
      rw [hsame]
      exact ⟨rfl, rfl, rfl⟩
  · rw [multimodelUpdate_chunk_colOther m i msg j hj]
    exact ⟨rfl, rfl, rfl⟩

theorem dispatchAll_chunks_colHistory (msgs : List chatMessage) (m : multimodelModel)
    (h : Nat) (hlen : h < m.columnResponses.length) :
    (colAt (dispatchAll m (msgs.map (multimodelMsg.streamChunk h))) h).chatHistory =
      msgs.foldl applyChunk (colAt m h).chatHistory := by
  induction msgs generalizing m with
  | nil => simp [dispatchAll, List.foldl_nil]
  | cons msg rest ih =>
    have hlen' : h < (multimodelUpdate m (.streamChunk h msg)).columnResponses.length := by
      rw [multimodelUpdate_cols_length]
      exact hlen
    have h2 := ih (multimodelUpdate m (.streamChunk h msg)) hlen'
    unfold dispatchAll at h2 ⊢
    simp only [List.map_cons, List.foldl_cons] at h2 ⊢
    rw [h2, multimodelUpdate_chunk_colSelf m h msg hlen]

theorem dispatchAll_chunks_colFields (msgs : List chatMessage) (m : multimodelModel)
    (h j : Nat) :
    (colAt (dispatchAll m (msgs.map (multimodelMsg.streamChunk h))) j).error =
        (colAt m j).error ∧
    (colAt (dispatchAll m (msgs.map (multimodelMsg.streamChunk h))) j).meta =
        (colAt m j).meta ∧
    (colAt (dispatchAll m (msgs.map (multimodelMsg.streamChunk h))) j).content =
        (colAt m j).content := by
  induction msgs generalizing m with
  | nil => exact ⟨rfl, rfl, rfl⟩
  | cons msg rest ih =>
    have hstep := multimodelUpdate_chunk_colFields m h msg j
    have htail := ih (multimodelUpdate m (.streamChunk h msg))
    unfold dispatchAll at htail ⊢
    simp only [List.map_cons, List.foldl_cons] at htail ⊢
    exact ⟨htail.1.trans hstep.1, htail.2.1.trans hstep.2.1, htail.2.2.trans hstep.2.2⟩

theorem dispatchAll_chunks_length (msgs : List chatMessage) (m : multimodelModel) (h : Nat) :
    (dispatchAll m (msgs.map (multimodelMsg.streamChunk h))).columnResponses.length =
      m.columnResponses.length := by
  induction msgs generalizing m with
  | nil => rfl
  | cons msg rest ih =>
    have := ih (multimodelUpdate m (.streamChunk h msg))
    unfold dispatchAll at this ⊢
    simp only [List.map_cons, List.foldl_cons] at this ⊢
    rw [this, multimodelUpdate_cols_length]

theorem foldStep_last_assistant (as : List hostModelAssignment)
    (cols : List multimodelColumnResponse) (ch : List chatMessage) (last : chatMessage)
    (hl : ch.getLast? = some last) (hrole : last.role ≠ "user") :
    foldStep as cols ch = ch := by
  unfold foldStep
  split
  · rw [hl]
    simp [hrole]
  · rfl

theorem foldStep_cases (as : List hostModelAssignment)
    (cols : List multimodelColumnResponse) (ch : List chatMessage) :
    foldStep as cols ch = ch ∨
      foldStep as cols ch = ch ++ [⟨"assistant", combinedResponse as cols⟩] := by
  unfold foldStep
  split
  · cases hl : ch.getLast? with
    | none => exact Or.inl rfl
    | some last =>
      dsimp only
      by_cases hrole : last.role = "user"
      · rw [if_pos hrole]
        by_cases hc : 0 < (combinedResponse as cols).length
        · simp only [hc, if_true]
          exact Or.inr trivial
        · simp only [hc, if_false]
          exact Or.inl trivial
      · rw [if_neg hrole]
        exact Or.inl rfl
  · exact Or.inl rfl

theorem foldStep_idem (as : List hostModelAssignment)
    (cols : List multimodelColumnResponse) (ch : List chatMessage) :
    foldStep as cols (foldStep as cols ch) = foldStep as cols ch := by
  rcases foldStep_cases as cols ch with h | h
  · rw [h]
    exact h
  · rw [h]
    exact foldStep_last_assistant as cols _ ⟨"assistant", combinedResponse as cols⟩
      (List.getLast?_concat _) (by simp)

theorem multimodelUpdate_end_unfold (m : multimodelModel) (i : Nat) (meta : LLMResponseMeta) :
    multimodelUpdate m (.streamEnd i meta) =
      (if allDone m.assignments ((multimodelUpdate m (.streamEnd i meta)).columnResponses) then
        { m with columnResponses := (multimodelUpdate m (.streamEnd i meta)).columnResponses,
                 isLoading := false,
                 chatHistory := foldStep m.assignments
                   ((multimodelUpdate m (.streamEnd i meta)).columnResponses) m.chatHistory }
      else { m with columnResponses :=
               (multimodelUpdate m (.streamEnd i meta)).columnResponses }) := by
  rw [multimodelUpdate_end_cols]
  rfl

theorem multimodelUpdate_end_idem (m : multimodelModel) (i : Nat) (meta : LLMResponseMeta) :
    multimodelUpdate (multimodelUpdate m (.streamEnd i meta)) (.streamEnd i meta) =
      multimodelUpdate m (.streamEnd i meta) := by
  have hg : ∀ c : multimodelColumnResponse,
      (fun c : multimodelColumnResponse => { c with meta := meta, isStreaming := false })
        { c with meta := meta, isStreaming := false } =
        { c with meta := meta, isStreaming := false } := fun c => rfl
  have hcols2 : (multimodelUpdate (multimodelUpdate m (.streamEnd i meta))
      (.streamEnd i meta)).columnResponses =
      (multimodelUpdate m (.streamEnd i meta)).columnResponses := by
    rw [multimodelUpdate_end_cols (multimodelUpdate m (.streamEnd i meta)) i meta]
    rw [multimodelUpdate_cols_length]
    rw [multimodelUpdate_end_cols m i meta]
    by_cases hi : i < m.columnResponses.length
    · rw [if_pos hi, if_pos hi, setColumn_idem _ _ _ hg]
    · rw [if_neg hi, if_neg hi]
  have hassign : (multimodelUpdate m (.streamEnd i meta)).assignments = m.assignments :=
    (multimodelUpdate_end_globals m i meta).1
  by_cases hd : allDone m.assignments ((multimodelUpdate m (.streamEnd i meta)).columnResponses)
  · have h1 := multimodelUpdate_end_unfold m i meta
    rw [if_pos hd] at h1
    have h2 := multimodelUpdate_end_unfold (multimodelUpdate m (.streamEnd i meta)) i meta
    rw [hcols2, hassign, if_pos hd] at h2
    have hload : (multimodelUpdate m (.streamEnd i meta)).isLoading = false := by
      rw [h1]
    have hch : (multimodelUpdate m (.streamEnd i meta)).chatHistory =
        foldStep m.assignments ((multimodelUpdate m (.streamEnd i meta)).columnResponses)
          m.chatHistory := by
      rw [h1]
    rw [h2]
    ext1
    · rfl
    · exact hload.symm
    · rfl
    · exact hassign.symm
    · rw [hch]
      exact foldStep_idem m.assignments
        ((multimodelUpdate m (.streamEnd i meta)).columnResponses) m.chatHistory
    · rfl
    · rfl
  · have h1 := multimodelUpdate_end_unfold m i meta
    rw [if_neg hd] at h1
    have h2 := multimodelUpdate_end_unfold (multimodelUpdate m (.streamEnd i meta)) i meta
    rw [hcols2, hassign, if_neg hd] at h2
    rw [h2]
    ext1
    · rfl
    · rfl
    · rfl
    · exact hassign.symm
    · rfl
    · rfl
    · rfl

theorem modelUpdateStreamEnd_emptyBuf (t : model) (meta : LLMResponseMeta)
    (h : ¬ 0 < t.responseBuf.length) :
    modelUpdateStreamEnd t meta = { t with responseMeta := meta, isLoading := false } := by
  unfold modelUpdateStreamEnd
  rw [if_neg h]

theorem modelUpdateStreamEnd_idem (s : model) (meta : LLMResponseMeta) :
    modelUpdateStreamEnd (modelUpdateStreamEnd s meta) meta = modelUpdateStreamEnd s meta := by
  by_cases hb : 0 < s.responseBuf.length
  · have h1 : modelUpdateStreamEnd s meta =
        { s with responseMeta := meta,
                 chatHistory := s.chatHistory ++ [chatMessage.mk "assistant" s.responseBuf],
                 responseBuf := "", isLoading := false } := by
      unfold modelUpdateStreamEnd
      rw [if_pos hb]
    rw [h1, modelUpdateStreamEnd_emptyBuf _ meta
      (by show ¬ (0 : Nat) < ("" : String).length; decide)]
  · rw [modelUpdateStreamEnd_emptyBuf s meta hb]
    exact modelUpdateStreamEnd_emptyBuf _ meta hb

theorem dispatchAll_append (m : multimodelModel) (a b : List multimodelMsg) :
    dispatchAll m (a ++ b) = dispatchAll (dispatchAll m a) b := by
  unfold dispatchAll
  rw [List.foldl_append]

theorem dispatchAll_singleton (m : multimodelModel) (e : multimodelMsg) :
    dispatchAll m [e] = multimodelUpdate m e := rfl

theorem streamToColumn_all_fragments (h now : Nat) (chunks : List streamChunk)
    (hnd : ∀ c ∈ chunks, c.done = false) :
    streamToColumn h now (chunks.map decodeResult.ok) =
      chunks.map (chunkEventOf h) ++
        [.streamEnd h (metaOfChunk now zeroStreamChunk)] := by
  induction chunks with
  | nil => rfl
  | cons c rest ih =>
    simp only [List.map_cons, streamToColumn, List.cons_append]
    rw [hnd c (List.mem_cons_self c rest)]
    simp only [Bool.false_eq_true, if_false]
    rw [ih fun x hx => hnd x (List.mem_cons_of_mem c hx)]

theorem streamToColumn_failure (h now : Nat) (chunks : List streamChunk) (e : String)
    (rest : List decodeResult) (hnd : ∀ c ∈ chunks, c.done = false) :
    streamToColumn h now
        (chunks.map decodeResult.ok ++ decodeResult.decodeFailure e :: rest) =
      chunks.map (chunkEventOf h) ++ [.streamErr h e] := by
  induction chunks with
  | nil => rfl
  | cons c rest2 ih =>
    simp only [List.map_cons, List.cons_append, streamToColumn]
    rw [hnd c (List.mem_cons_self c rest2)]
    simp only [Bool.false_eq_true, if_false, List.append_eq]
    rw [ih fun x hx => hnd x (List.mem_cons_of_mem c hx)]

theorem chunkEvents_as_map (h : Nat) (chunks : List streamChunk) :
    chunks.map (chunkEventOf h) =
      (chunks.map fun c => chatMessage.mk c.messageRole c.messageContent).map
        (multimodelMsg.streamChunk h) := by
  rw [List.map_map]
  rfl

/-- Claim C2: dispatching K assistant fragments followed by one terminal event
to an assigned column whose history does not end in an assistant turn (it ends
in the just-appended user turn) leaves that column's history extended by
exactly one assistant turn whose text is the concatenation of the K fragments
in arrival order. -/
theorem c2_session_fragments_concatenate (m : multimodelModel) (h : Nat)
    (msg0 : chatMessage) (rest : List chatMessage) (meta : LLMResponseMeta)
    (hlen : h < m.columnResponses.length)
    (hlast : lastIsAssistant (colAt m h).chatHistory = false)
    (hroles : ∀ x ∈ msg0 :: rest, x.role = "assistant") :
    (colAt (dispatchAll m (((msg0 :: rest).map (multimodelMsg.streamChunk h)) ++
        [multimodelMsg.streamEnd h meta])) h).chatHistory =
      (colAt m h).chatHistory ++ [⟨"assistant", concatContents (msg0 :: rest)⟩] := by
  rw [dispatchAll_append, dispatchAll_singleton]
  have hlen1 : h < (dispatchAll m
      ((msg0 :: rest).map (multimodelMsg.streamChunk h))).columnResponses.length := by
    rw [dispatchAll_chunks_length]
    exact hlen
  rw [multimodelUpdate_end_colSelf
    (dispatchAll m ((msg0 :: rest).map (multimodelMsg.streamChunk h))) h meta hlen1]
  show (colAt (dispatchAll m
      ((msg0 :: rest).map (multimodelMsg.streamChunk h))) h).chatHistory = _
  rw [dispatchAll_chunks_colHistory (msg0 :: rest) m h hlen]
  exact foldl_applyChunk_fresh msg0 rest _ hlast (hroles msg0 (List.mem_cons_self _ _))

/-- Witness for C2 at the concrete two-host scenario: host 0 receives
fragments "He" and "llo" and the terminal event, and its last turn becomes the
assistant turn "Hello". -/
theorem c2_session_fragments_concatenate_witness :
    (0 < scenarioSubmitted.columnResponses.length ∧
      lastIsAssistant (colAt scenarioSubmitted 0).chatHistory = false ∧
      (∀ x ∈ [chatMessage.mk "assistant" "He", chatMessage.mk "assistant" "llo"],
        x.role = "assistant")) ∧
    (colAt (dispatchAll scenarioSubmitted
        ((([chatMessage.mk "assistant" "He", chatMessage.mk "assistant" "llo"]).map
          (multimodelMsg.streamChunk 0)) ++
          [multimodelMsg.streamEnd 0 (metaOfChunk 9 (doneChunk "m1"))])) 0).chatHistory =
      (colAt scenarioSubmitted 0).chatHistory ++
        [⟨"assistant", concatContents
          [chatMessage.mk "assistant" "He", chatMessage.mk "assistant" "llo"]⟩] :=
  ⟨⟨by decide, by decide, by decide⟩,
   c2_session_fragments_concatenate scenarioSubmitted 0 (chatMessage.mk "assistant" "He")
     [chatMessage.mk "assistant" "llo"] (metaOfChunk 9 (doneChunk "m1"))
     (by decide) (by decide) (by decide)⟩

/-- Claim C4: an error event records the error on the addressed column and
clears its streaming flag, leaves that column's accumulated history (and its
metadata and content buffer) intact, and leaves every other column and all
orchestrator-level fields unchanged. -/
theorem c4_error_event_isolated (m : multimodelModel) (h : Nat) (e : String)
    (hlen : h < m.columnResponses.length) :
    colAt (multimodelUpdate m (.streamErr h e)) h =
      { colAt m h with error := some e, isStreaming := false } ∧
    (∀ j, j ≠ h → colAt (multimodelUpdate m (.streamErr h e)) j = colAt m j) ∧
    (multimodelUpdate m (.streamErr h e)).chatHistory = m.chatHistory ∧
    (multimodelUpdate m (.streamErr h e)).isLoading = m.isLoading ∧
    (multimodelUpdate m (.streamErr h e)).err = m.err ∧
    (multimodelUpdate m (.streamErr h e)).assignments = m.assignments ∧
    (multimodelUpdate m (.streamErr h e)).state = m.state :=
  ⟨multimodelUpdate_err_colSelf m h e hlen,
   fun j hj => multimodelUpdate_err_colOther m h e j hj,
   (multimodelUpdate_err_globals m h e).2.1,
   (multimodelUpdate_err_globals m h e).2.2.1,
   (multimodelUpdate_err_globals m h e).2.2.2.1,
   (multimodelUpdate_err_globals m h e).1,
   (multimodelUpdate_err_globals m h e).2.2.2.2.1⟩

/-- Witness for C4 at the concrete scenario: an error "boom" dispatched to
column 1 after submission. -/
theorem c4_error_event_isolated_witness :
    (1 < scenarioSubmitted.columnResponses.length) ∧
    (colAt (multimodelUpdate scenarioSubmitted (.streamErr 1 "boom")) 1 =
      { colAt scenarioSubmitted 1 with error := some "boom", isStreaming := false } ∧
    (∀ j, j ≠ 1 → colAt (multimodelUpdate scenarioSubmitted (.streamErr 1 "boom")) j =
      colAt scenarioSubmitted j) ∧
    (multimodelUpdate scenarioSubmitted (.streamErr 1 "boom")).chatHistory =
      scenarioSubmitted.chatHistory ∧
    (multimodelUpdate scenarioSubmitted (.streamErr 1 "boom")).isLoading =
      scenarioSubmitted.isLoading ∧
    (multimodelUpdate scenarioSubmitted (.streamErr 1 "boom")).err =
      scenarioSubmitted.err ∧
    (multimodelUpdate scenarioSubmitted (.streamErr 1 "boom")).assignments =
      scenarioSubmitted.assignments ∧
    (multimodelUpdate scenarioSubmitted (.streamErr 1 "boom")).state =
      scenarioSubmitted.state) :=
  ⟨by decide, c4_error_event_isolated scenarioSubmitted 1 "boom" (by decide)⟩

/-- Claim C8: when the submitted text is empty after trimming, the submit
branch is a no-op: the orchestrator state is returned unchanged and no session
is started. -/
theorem c8_empty_input_noop (m : multimodelModel) (value : String) (now : Nat)
    (hempty : trimSpace value = "") :
    updateChatSubmit m value now = (m, []) := by
  unfold updateChatSubmit
  rw [hempty]
  rfl

/-- Witness for C8: whitespace-only input at the assigned scenario state. -/
theorem c8_empty_input_noop_witness :
    trimSpace " \t\n " = "" ∧
    updateChatSubmit scenarioAssigned " \t\n " 7 = (scenarioAssigned, []) :=
  ⟨by decide, c8_empty_input_noop scenarioAssigned " \t\n " 7 (by decide)⟩

/-- Claim C9: a stream message whose host index is at least the number of
column slots (four) leaves every column — history, content, error, metadata
and streaming flag — unchanged, with no out-of-range access. -/
theorem c9_out_of_range_ignored (m : multimodelModel) (msg : multimodelMsg)
    (hlen : m.columnResponses.length = 4) (hge : 4 ≤ msg.hostIndex) :
    (multimodelUpdate m msg).columnResponses = m.columnResponses := by
  cases msg with
  | streamChunk i message =>
    have hni : ¬ i < m.columnResponses.length := by
      simp only [multimodelMsg.hostIndex] at hge
      omega
    rw [multimodelUpdate_chunk_cols, if_neg hni]
  | streamEnd i meta =>
    have hni : ¬ i < m.columnResponses.length := by
      simp only [multimodelMsg.hostIndex] at hge
      omega
    rw [multimodelUpdate_end_cols, if_neg hni]
  | streamErr i e =>
    have hni : ¬ i < m.columnResponses.length := by
      simp only [multimodelMsg.hostIndex] at hge
      omega
    rw [multimodelUpdate_err_cols, if_neg hni]

/-- Witness for C9: an error event addressed to host index 7 leaves all four
columns of the scenario state untouched. -/
theorem c9_out_of_range_ignored_witness :
    (scenarioSubmitted.columnResponses.length = 4 ∧
      4 ≤ (multimodelMsg.streamErr 7 "x").hostIndex) ∧
    (multimodelUpdate scenarioSubmitted (multimodelMsg.streamErr 7 "x")).columnResponses =
      scenarioSubmitted.columnResponses :=
  ⟨⟨by decide, by decide⟩,
   c9_out_of_range_ignored scenarioSubmitted (multimodelMsg.streamErr 7 "x")
     (by decide) (by decide)⟩

/-- Claim C7: dispatching the same terminal (stream-end) event twice leaves
the state identical to dispatching it once, both in the multimodel
orchestrator and in the single-host model; in particular no assistant turn is
duplicated and the terminal metadata is not double-applied. -/
theorem c7_terminal_event_idempotent (m : multimodelModel) (h : Nat)
    (meta : LLMResponseMeta) (s : model) :
    multimodelUpdate (multimodelUpdate m (.streamEnd h meta)) (.streamEnd h meta) =
      multimodelUpdate m (.streamEnd h meta) ∧
    modelUpdateStreamEnd (modelUpdateStreamEnd s meta) meta = modelUpdateStreamEnd s meta :=
  ⟨multimodelUpdate_end_idem m h meta, modelUpdateStreamEnd_idem s meta⟩

/-- Claim C10: when the stream reaches end of input before any done-true
record, the column still receives a terminal event whose metadata is the zero
value (done false, all durations and token counts zero, model name empty), its
streaming flag becomes false, and its error field is untouched. -/
theorem c10_eof_zero_metadata (m : multimodelModel) (h now : Nat)
    (chunks : List streamChunk) (hlen : h < m.columnResponses.length)
    (hnd : ∀ c ∈ chunks, c.done = false) :
    (colAt (dispatchAll m (streamToColumn h now (chunks.map decodeResult.ok))) h).isStreaming
        = false ∧
    (colAt (dispatchAll m (streamToColumn h now (chunks.map decodeResult.ok))) h).error =
        (colAt m h).error ∧
    (colAt (dispatchAll m (streamToColumn h now (chunks.map decodeResult.ok))) h).meta =
        metaOfChunk now zeroStreamChunk ∧
    metaOfChunk now zeroStreamChunk = LLMResponseMeta.mk "" now false 0 0 0 0 0 0 := by
  rw [streamToColumn_all_fragments h now chunks hnd, chunkEvents_as_map, dispatchAll_append,
      dispatchAll_singleton]
  have hlen1 : h < (dispatchAll m
      ((chunks.map fun c => chatMessage.mk c.messageRole c.messageContent).map
        (multimodelMsg.streamChunk h))).columnResponses.length := by
    rw [dispatchAll_chunks_length]
    exact hlen
  rw [multimodelUpdate_end_colSelf _ h _ hlen1]
  refine ⟨rfl, ?_, rfl, rfl⟩
  show (colAt (dispatchAll m
      ((chunks.map fun c => chatMessage.mk c.messageRole c.messageContent).map
        (multimodelMsg.streamChunk h))) h).error = _
  exact (dispatchAll_chunks_colFields
    (chunks.map fun c => chatMessage.mk c.messageRole c.messageContent) m h h).1

/-- Witness for C10: one non-terminal fragment then EOF, dispatched to column
0 of the submitted scenario state. -/
theorem c10_eof_zero_metadata_witness :
    (0 < scenarioSubmitted.columnResponses.length ∧
      (∀ c ∈ [fragChunk "m1" "a"], c.done = false)) ∧
    ((colAt (dispatchAll scenarioSubmitted
        (streamToColumn 0 3 ([fragChunk "m1" "a"].map decodeResult.ok))) 0).isStreaming
        = false ∧
    (colAt (dispatchAll scenarioSubmitted
        (streamToColumn 0 3 ([fragChunk "m1" "a"].map decodeResult.ok))) 0).error =
        (colAt scenarioSubmitted 0).error ∧
    (colAt (dispatchAll scenarioSubmitted
        (streamToColumn 0 3 ([fragChunk "m1" "a"].map decodeResult.ok))) 0).meta =
        metaOfChunk 3 zeroStreamChunk ∧
    metaOfChunk 3 zeroStreamChunk = LLMResponseMeta.mk "" 3 false 0 0 0 0 0 0) :=
  ⟨⟨by decide, by decide⟩,
   c10_eof_zero_metadata scenarioSubmitted 0 3 [fragChunk "m1" "a"]
     (by decide) (by decide)⟩

/-- Counterexample for C5 as stated: with a well-formed fragment, then a
malformed record, then a further well-formed terminal record, the decode loop
of `streamToColumn` yields the fragment's event followed by an error event and
stops — the malformed record is not skipped and the subsequent record is never
decoded, even though no read/transport failure occurred. -/
theorem c5_malformed_not_skipped_counterexample :
    streamToColumn 1 9 [.ok (fragChunk "m2" "Hi"), .decodeFailure "invalid character",
        .ok (doneChunk "m2")] =
      [chunkEventOf 1 (fragChunk "m2" "Hi"),
       multimodelMsg.streamErr 1 "invalid character"] := by
  decide

/-- Claim C5 amended: a malformed (non-decodable) record is not skipped; it
terminates the decode sequence with an error exactly as a read/transport
failure does.  Records before the failure each yield their chunk event, and
records after it are never decoded. -/
theorem c5_malformed_terminates_stream (h now : Nat) (chunks : List streamChunk)
    (e : String) (rest : List decodeResult) (hnd : ∀ c ∈ chunks, c.done = false) :
    streamToColumn h now
        (chunks.map decodeResult.ok ++ decodeResult.decodeFailure e :: rest) =
      chunks.map (chunkEventOf h) ++ [.streamErr h e] :=
  streamToColumn_failure h now chunks e rest hnd

/-- Witness for the amended C5: the fragment "Hi" then a failure record then a
further record; the output is the chunk event and the error event only. -/
theorem c5_malformed_terminates_stream_witness :
    (∀ c ∈ [fragChunk "m2" "Hi"], c.done = false) ∧
    streamToColumn 1 9 ([fragChunk "m2" "Hi"].map decodeResult.ok ++
        decodeResult.decodeFailure "API returned non-200 status: 500" ::
          [.ok (doneChunk "m2")]) =
      [fragChunk "m2" "Hi"].map (chunkEventOf 1) ++
        [multimodelMsg.streamErr 1 "API returned non-200 status: 500"] :=
  ⟨by decide,
   c5_malformed_terminates_stream 1 9 [fragChunk "m2" "Hi"]
     "API returned non-200 status: 500" [.ok (doneChunk "m2")] (by decide)⟩

/-- Counterexample for C6 as stated: the model-selection list presented in
multimodel assignment mode is built from the configured order alone and never
consults the loaded-model status query, so for configured models [a, b, c]
with b loaded the presented titles are [a, b, c], not the required [b, a, c]. -/
theorem c6_multimodel_list_not_loaded_first_counterexample :
    (multimodelModelItems ["a", "b", "c"]).map listItem.title = ["a", "b", "c"] ∧
    (multimodelModelItems ["a", "b", "c"]).map listItem.title ≠ ["b", "a", "c"] := by
  decide

theorem fetchStep_loop (loadedModels : List String) (l : List String)
    (aL aO : List listItem) :
    l.foldl (fetchStep loadedModels) (aL, aO) =
      (aL ++ (l.filter fun m => decide (m ∈ loadedModels)).map
          (fun m => listItem.mk m "Select this model" (decide (m ∈ loadedModels))),
       aO ++ (l.filter fun m => !(decide (m ∈ loadedModels))).map
          (fun m => listItem.mk m "Select this model" (decide (m ∈ loadedModels)))) := by
  induction l generalizing aL aO with
  | nil => simp
  | cons m l ih =>
    by_cases hc : m ∈ loadedModels
    · have hd : decide (m ∈ loadedModels) = true := decide_eq_true hc
      simp only [List.foldl_cons, fetchStep, hd, List.filter_cons, if_true]
      rw [ih]
      simp [hd]
    · have hd : decide (m ∈ loadedModels) = false := decide_eq_false hc
      simp only [List.foldl_cons, fetchStep, hd, List.filter_cons, Bool.false_eq_true, if_false]
      rw [ih]
      simp [hd]

theorem fetchAndSelectModels_eq (hostModels loadedModels : List String) :
    fetchAndSelectModels hostModels loadedModels =
      (hostModels.filter fun m => decide (m ∈ loadedModels)).map
          (fun m => listItem.mk m "Select this model" (decide (m ∈ loadedModels))) ++
        (hostModels.filter fun m => !(decide (m ∈ loadedModels))).map
          (fun m => listItem.mk m "Select this model" (decide (m ∈ loadedModels))) := by
  unfold fetchAndSelectModels
  rw [fetchStep_loop]
  simp

/-- Claim C6 amended: single-host mode does present the host's configured
models stably partitioned with the loaded ones first ([a,b,c] with b loaded
yields [b,a,c]); multimodel assignment mode, however, presents the configured
order unchanged without consulting the loaded-model status query, so the
loaded-first order does not hold on every model-selection path. -/
theorem c6_selectable_model_order (hostModels loadedModels : List String) :
    (fetchAndSelectModels hostModels loadedModels).map listItem.title =
      hostModels.filter (fun m => decide (m ∈ loadedModels)) ++
        hostModels.filter (fun m => !(decide (m ∈ loadedModels))) ∧
    (multimodelModelItems hostModels).map listItem.title = hostModels ∧
    (fetchAndSelectModels ["a", "b", "c"] ["b"]).map listItem.title = ["b", "a", "c"] := by
  refine ⟨?_, ?_, by decide⟩
  · rw [fetchAndSelectModels_eq]
    simp only [List.map_append, List.map_map]
    rw [show (listItem.title ∘ fun m =>
        listItem.mk m "Select this model" (decide (m ∈ loadedModels))) =
        fun m : String => m from rfl]
    simp
  · unfold multimodelModelItems
    rw [List.map_map,
        show (listItem.title ∘ fun m =>
          listItem.mk m "Select this model" false) = fun m : String => m from rfl]
    simp

/-- Claim C1, evaluated at the failing input (code bug): in the two-host round
where host 0 completes normally and host 1 then errors — the error being the
last event dispatched — every assigned column has stopped streaming, so the
aggregate recomputation would report completion, yet the aggregate isLoading
flag is still true: the multimodelStreamErr case of Update never recomputes
the aggregate.  The spec requires isLoading = false at this point. -/
theorem c1_error_last_leaves_isLoading_true :
    scenarioErrorFinal.isLoading = true ∧
    allDone scenarioErrorFinal.assignments scenarioErrorFinal.columnResponses = true ∧
    (colAt scenarioErrorFinal 0).isStreaming = false ∧
    (colAt scenarioErrorFinal 1).isStreaming = false ∧
    (colAt scenarioErrorFinal 0).chatHistory.getLast? =
      some { role := "assistant", content := "Hello" } ∧
    (colAt scenarioErrorFinal 1).error = some "API returned non-200 status: 500" := by
  decide

/-- Claim C3, evaluated at the failing input (code bug): in the round where
both hosts complete normally, the aggregate flag does transition to false and
the per-column histories hold the completed outputs unmodified, yet nothing is
appended to the shared transcript: the fold that would append the combined
labeled entry is guarded by a non-empty per-column content buffer and by a
trailing user turn in the shared history, and neither condition can ever hold
in multimodel mode (the content buffers are only ever reset and the shared
history never receives a user turn). -/
theorem c3_no_combined_transcript_entry :
    scenarioOkFinal.isLoading = false ∧
    scenarioOkFinal.chatHistory = [] ∧
    (colAt scenarioOkFinal 0).chatHistory.getLast? =
      some { role := "assistant", content := "Hello" } ∧
    (colAt scenarioOkFinal 1).chatHistory.getLast? =
      some { role := "assistant", content := "Hi" } ∧
    (colAt scenarioOkFinal 0).content = "" ∧
    (colAt scenarioOkFinal 1).content = "" := by
  decide

end GollamaCLI
